import Mathlib

/-!
Verification development for the query admission and result-retrieval core of
an Athena MCP server (`src/mcp_server_aws_resources/server.py`).

Strings are modelled as `List Char` (ASCII discipline: `Char.toUpper` and the
word-character test mirror Python string/regex behaviour on the ASCII range).
The remote query engine is modelled as an oracle record supplying the responses
the code would receive; engine calls made by the coordinator are recorded in an
explicit trace list.  All definitions are translated from the source file; the
validation logic appears inline in `execute_athena_query` (server.py lines
117-143) and is factored here as the pure function `validate_query` with the
exact same tests in the exact same order.
-/

namespace AthenaMCP

abbrev Str := List Char

/-- Python `str.strip` whitespace class (ASCII part). -/
def pyIsSpace (c : Char) : Bool :=
  c = ' ' || c = '\t' || c = '\n' || c = '\x0d' || c = '\x0b' || c = '\x0c'

/-- Python `str.strip`: drop leading and trailing whitespace. -/
def strip (s : Str) : Str :=
  ((s.dropWhile pyIsSpace).reverse.dropWhile pyIsSpace).reverse

/-- Python `str.upper` (ASCII range). -/
def upper (s : Str) : Str := s.map Char.toUpper

/-- `query_string.strip().upper()` — server.py line 117. -/
def normalizeQuery (s : Str) : Str := upper (strip s)

/-- Word character for the regex `\b` boundary (`[A-Za-z0-9_]`, the ASCII
part of Python's `\w`). -/
def isWordChar (c : Char) : Bool := c.isAlphanum || c = '_'

/-- The keyword `kw` occurs in `s` at position `i` with word boundaries on
both sides (the character before position `i`, if any, is not a word
character, and neither is the character just after the match). -/
def wordAt (kw s : Str) (i : Nat) : Bool :=
  decide ((s.drop i).take kw.length = kw) &&
  (decide (i = 0) || !isWordChar (s.getD (i - 1) ' ')) &&
  !isWordChar (s.getD (i + kw.length) ' ')

/-- `re.search(r'\b' + keyword + r'\b', s)` succeeds — the keyword occurs
somewhere in `s` as a whole word (all denylisted keywords are purely
alphabetic, so `\b` is exactly the word/non-word transition). -/
def containsWord (kw s : Str) : Bool :=
  (List.range (s.length + 1)).any (wordAt kw s)

/-- server.py lines 131-134. -/
def disallowed_keywords : List Str :=
  ["INSERT", "UPDATE", "DELETE", "DROP", "ALTER", "CREATE",
   "TRUNCATE", "MERGE", "GRANT", "REVOKE", "VACUUM"].map String.data

/-- server.py line 127. -/
def prefixRestrictionError : Str :=
  "Security restriction: Only SELECT, SHOW, DESCRIBE, and EXPLAIN queries are allowed".data

/-- server.py line 142. -/
def keywordRestrictionError (kw : Str) : Str :=
  "Security restriction: Query contains disallowed keyword: ".data ++ kw

/-- server.py lines 120-125: the normalized query must start with one of the
allowed statement openers or equal `SHOW DATABASES` exactly. -/
def allowedStart (nq : Str) : Bool :=
  "SELECT ".data.isPrefixOf nq ||
  "WITH ".data.isPrefixOf nq ||
  "SHOW ".data.isPrefixOf nq ||
  "DESCRIBE ".data.isPrefixOf nq ||
  decide (nq = "SHOW DATABASES".data) ||
  "EXPLAIN ".data.isPrefixOf nq

/-- The validation gate of `execute_athena_query` (server.py lines 117-143),
factored as a pure function: `none` means admitted, `some reason` means
rejected.  The keyword scan tries the denylist in its fixed list order and
reports the first keyword that matches anywhere in the normalized query. -/
def validate_query (query_string : Str) : Option Str :=
  let normalized_query := normalizeQuery query_string
  if !allowedStart normalized_query then
    some prefixRestrictionError
  else
    match disallowed_keywords.find? (fun kw => containsWord kw normalized_query) with
    | some kw => some (keywordRestrictionError kw)
    | none => none

/-- Athena query execution states (spec section 3; the code compares the
engine-reported state string against these five values). -/
inductive QueryStatus where
  | QUEUED
  | RUNNING
  | SUCCEEDED
  | FAILED
  | CANCELLED
deriving DecidableEq, Repr

/-- The fields of the `QueryExecution` response the code reads:
`Status.State` (assumed present), the optional `Status.StateChangeReason`,
the optional `Statistics` blob (kept opaque as a string) and the optional
`ResultConfiguration.OutputLocation`. -/
structure QueryExecutionInfo where
  state : QueryStatus
  stateChangeReason : Option Str
  statistics : Option Str
  outputLocation : Option Str
deriving DecidableEq, Repr

/-- One cell of a raw result row: the `VarCharValue` key may be absent
(SQL NULL). -/
structure Datum where
  varCharValue : Option Str
deriving DecidableEq, Repr

/-- One raw result row: the code indexes `row['Data']`. -/
structure RawRow where
  rowData : List Datum
deriving DecidableEq, Repr

/-- One raw column descriptor; the code reads `col.get('Name', '')` and
`col.get('Type', '')`. -/
structure RawColumn where
  rawName : Option Str
  rawType : Option Str
deriving DecidableEq, Repr

/-- The `ResultSet` part of a `get_query_results` response.
`resultSetMetadata = some cols` models the `ResultSetMetadata` key being
present with `ColumnInfo` list `cols` (an absent `ColumnInfo` key defaults to
`[]` in the code, which is `some []` here); `none` models an absent
`ResultSetMetadata` key.  `rows` likewise models the optional `Rows` key. -/
structure RawResultSet where
  resultSetMetadata : Option (List RawColumn)
  rows : Option (List RawRow)
deriving DecidableEq, Repr

/-- A full `get_query_results` response; the `ResultSet` key may be absent. -/
structure ResultsResponse where
  resultSet : Option RawResultSet
deriving DecidableEq, Repr

/-- Engine calls the coordinator can make, recorded in a trace. -/
inductive EngineCall where
  | startQuery
  | getStatus
  | getResults
deriving DecidableEq, Repr

/-- Oracle for the engine as seen by `execute_athena_query`:
`start_query_execution` receives the (unmodified) query string, the resolved
workgroup and the resolved output location, and either raises (modelled as
`Except.error`, caught by the enclosing `try` and turned into an error
outcome) or returns the `QueryExecutionId`; `get_query_execution k` is the
response to the `k`-th status poll (0-indexed); `get_query_results` is the
response to the results fetch on the success path (no `MaxResults` is passed
there). -/
structure ExecEngine where
  start_query_execution : Str → Str → Str → Except Str Str
  get_query_execution : Nat → QueryExecutionInfo
  get_query_results : ResultsResponse

/-- The dictionary `execute_athena_query` returns: either `{"error": msg}` or
`QueryExecutionId` / `OutputLocation` plus the optional `Status` key (set only
when waiting) and the optional `Results` key (set only on SUCCEEDED, holding
the engine's raw results response). -/
inductive ExecOutput where
  | error (msg : Str)
  | ok (queryExecutionId : Str) (outputLocation : Str)
       (status : Option QueryStatus) (results : Option ResultsResponse)
deriving DecidableEq, Repr

/-- server.py line 169. -/
def max_retries : Nat := 100

/-- Python `a or b` for an optional string argument: `None` and the empty
string are falsy, so both fall back to the default. -/
def orDefault (v : Option Str) (d : Str) : Str :=
  match v with
  | none => d
  | some s => if s = [] then d else s

/-- The `while status in ['QUEUED', 'RUNNING'] and retry_count < max_retries`
loop of server.py lines 172-180.  `remaining` is `max_retries - retry_count`,
`retry_count` numbers the next status call, and the result is the final
status together with the final `retry_count` (= total number of
`get_query_execution` calls made, since each iteration makes exactly one). -/
def pollLoop (get_state : Nat → QueryStatus) :
    Nat → Nat → QueryStatus → QueryStatus × Nat
  | 0, retry_count, status => (status, retry_count)
  | remaining + 1, retry_count, status =>
    if status = .QUEUED ∨ status = .RUNNING then
      pollLoop get_state remaining (retry_count + 1) (get_state retry_count)
    else
      (status, retry_count)

/-- `AWSResourceQuerier.execute_athena_query` (server.py lines 96-195) over
the engine oracle, returning the output dictionary together with the trace of
engine calls made.  Mirrors the source: resolve defaults, validate, start,
optionally poll (initial status literal `'RUNNING'`, cap `max_retries`), and
on SUCCEEDED attach the raw `get_query_results` response. -/
def execute_athena_query (eng : ExecEngine) (query_string : Str)
    (workgroup output_location : Option Str) (wait_for_completion : Bool)
    (athena_workgroup athena_output_location : Str) :
    ExecOutput × List EngineCall :=
  let wg := orDefault workgroup athena_workgroup
  let ol := orDefault output_location athena_output_location
  match validate_query query_string with
  | some err => (.error err, [])
  | none =>
    match eng.start_query_execution query_string wg ol with
    | .error e => (.error e, [.startQuery])
    | .ok query_execution_id =>
      let outputLoc := ol ++ query_execution_id ++ ".csv".data
      if wait_for_completion then
        let poll := pollLoop (fun k => (eng.get_query_execution k).state)
          max_retries 0 .RUNNING
        let status := poll.1
        let calls := EngineCall.startQuery :: List.replicate poll.2 .getStatus
        if status = .SUCCEEDED then
          (.ok query_execution_id outputLoc (some status) (some eng.get_query_results),
           calls ++ [.getResults])
        else
          (.ok query_execution_id outputLoc (some status) none, calls)
      else
        (.ok query_execution_id outputLoc none none, [.startQuery])

/-- A normalized column descriptor `{'Name': ..., 'Type': ...}`. -/
structure ColumnDesc where
  name : Str
  typ : Str
deriving DecidableEq, Repr

/-- server.py lines 238-244: map each raw column to `{'Name': ..., 'Type': ...}`
with empty-string defaults, guarded by the presence of `ResultSet` and
`ResultSetMetadata`. -/
def processColumnInfo (resp : ResultsResponse) : List ColumnDesc :=
  match resp.resultSet with
  | some rs =>
    match rs.resultSetMetadata with
    | some cols => cols.map (fun col => ⟨col.rawName.getD [], col.rawType.getD []⟩)
    | none => []
  | none => []

/-- The inner loop of server.py lines 257-260:
`for i, col_info in enumerate(column_info): if i < len(row['Data']):
data[col_info['Name']] = row['Data'][i].get('VarCharValue', '')`.
The Python dict is modelled as the association list of assignments in
insertion order. -/
def rowToDataAux (rowData : List Datum) (i : Nat) :
    List ColumnDesc → List (Str × Str)
  | [] => []
  | col_info :: rest =>
    match rowData.get? i with
    | some d => (col_info.name, d.varCharValue.getD []) :: rowToDataAux rowData (i + 1) rest
    | none => rowToDataAux rowData (i + 1) rest

/-- One normalized `ResultRow` built from a raw row (server.py lines 257-260). -/
def rowToData (column_info : List ColumnDesc) (row : RawRow) : List (Str × Str) :=
  rowToDataAux row.rowData 0 column_info

/-- server.py lines 247-262: iterate over the raw rows, skipping the first
(`header_processed` flag) and mapping each remaining row through the
per-row zip; guarded by the presence of `ResultSet` and `Rows`. -/
def processRows (column_info : List ColumnDesc) (resp : ResultsResponse) :
    List (List (Str × Str)) :=
  match resp.resultSet with
  | some rs =>
    match rs.rows with
    | some rawRows =>
      match rawRows with
      | [] => []
      | _header :: rest => rest.map (rowToData column_info)
    | none => []
  | none => []

/-- Oracle for the engine as seen by `get_athena_query_results`: one
`get_query_execution` response and the `get_query_results` response as a
function of the `MaxResults` argument. -/
structure FetchEngine where
  get_query_execution : QueryExecutionInfo
  get_query_results : Nat → ResultsResponse

/-- The dictionary `get_athena_query_results` returns on the non-exception
path.  `columnInfo` / `rows` / `rowCount` are `Option`s because those keys
are set only on the SUCCEEDED branch; `errorMessage` models the optional
`ErrorMessage` key. -/
structure QueryResultsOutput where
  queryExecutionId : Str
  status : QueryStatus
  statisticsDetails : Str
  outputLocation : Str
  errorMessage : Option Str
  columnInfo : Option (List ColumnDesc)
  rows : Option (List (List (Str × Str)))
  rowCount : Option Nat
deriving DecidableEq, Repr

/-- `AWSResourceQuerier.get_athena_query_results` (server.py lines 197-268)
over the engine oracle: read the status, build the metadata dictionary, add
`ErrorMessage` when FAILED and the engine gave a `StateChangeReason`, and
only on SUCCEEDED fetch and normalize the results. -/
def get_athena_query_results (eng : FetchEngine) (query_execution_id : Str)
    (max_results : Nat) : QueryResultsOutput :=
  let info := eng.get_query_execution
  let status := info.state
  let base : QueryResultsOutput :=
    { queryExecutionId := query_execution_id
      status := status
      statisticsDetails := info.statistics.getD []
      outputLocation := info.outputLocation.getD []
      errorMessage := if status = .FAILED then info.stateChangeReason else none
      columnInfo := none
      rows := none
      rowCount := none }
  if status = .SUCCEEDED then
    let results_response := eng.get_query_results max_results
    let column_info := processColumnInfo results_response
    let rows := processRows column_info results_response
    { base with
      columnInfo := some column_info
      rows := some rows
      rowCount := some rows.length }
  else
    base

/-! ## Poll-loop invariants -/

/-- A non-active status makes the loop return immediately. -/
theorem pollLoop_inactive (f : Nat → QueryStatus) :
    ∀ (rem r : Nat) (s : QueryStatus), ¬(s = .QUEUED ∨ s = .RUNNING) →
    pollLoop f rem r s = (s, r) := by
  intro rem
  cases rem with
  | zero => intro r s _; rfl
  | succ n => intro r s h; unfold pollLoop; rw [if_neg h]

/-- The loop never decreases the retry counter. -/
theorem pollLoop_retry_ge (f : Nat → QueryStatus) :
    ∀ (rem r : Nat) (s : QueryStatus), r ≤ (pollLoop f rem r s).2 := by
  intro rem
  induction rem with
  | zero => intro r s; exact Nat.le_refl r
  | succ n ih =>
    intro r s
    by_cases hc : s = .QUEUED ∨ s = .RUNNING
    · unfold pollLoop
      rw [if_pos hc]
      have := ih (r + 1) (f r)
      omega
    · rw [pollLoop_inactive f (n + 1) r s hc]

/-- The loop makes at most `rem` further status calls. -/
theorem pollLoop_retry_le (f : Nat → QueryStatus) :
    ∀ (rem r : Nat) (s : QueryStatus), (pollLoop f rem r s).2 ≤ r + rem := by
  intro rem
  induction rem with
  | zero => intro r s; exact Nat.le_refl r
  | succ n ih =>
    intro r s
    by_cases hc : s = .QUEUED ∨ s = .RUNNING
    · unfold pollLoop
      rw [if_pos hc]
      have := ih (r + 1) (f r)
      omega
    · rw [pollLoop_inactive f (n + 1) r s hc]
      exact Nat.le_add_right r (n + 1)

/-- An active initial status with fuel left forces at least one status call. -/
theorem pollLoop_ge_one (f : Nat → QueryStatus) (rem r : Nat) (s : QueryStatus)
    (hs : s = .QUEUED ∨ s = .RUNNING) (hrem : rem ≠ 0) :
    r + 1 ≤ (pollLoop f rem r s).2 := by
  cases rem with
  | zero => exact absurd rfl hrem
  | succ n =>
    unfold pollLoop
    rw [if_pos hs]
    exact pollLoop_retry_ge f n (r + 1) (f r)

/-- If the final status is still active, the retry budget was exhausted. -/
theorem pollLoop_active_exhausts (f : Nat → QueryStatus) :
    ∀ (rem r : Nat) (s : QueryStatus),
    ((pollLoop f rem r s).1 = .QUEUED ∨ (pollLoop f rem r s).1 = .RUNNING) →
    (pollLoop f rem r s).2 = r + rem := by
  intro rem
  induction rem with
  | zero => intro r s _; rfl
  | succ n ih =>
    intro r s h
    by_cases hc : s = .QUEUED ∨ s = .RUNNING
    · unfold pollLoop at h ⊢
      rw [if_pos hc] at h ⊢
      have := ih (r + 1) (f r) h
      omega
    · rw [pollLoop_inactive f (n + 1) r s hc] at h
      exact absurd h hc

/-- If the loop returns without having made a further call, the final status
is the initial one. -/
theorem pollLoop_retry_eq_imp (f : Nat → QueryStatus) :
    ∀ (rem r : Nat) (s : QueryStatus), (pollLoop f rem r s).2 = r →
    (pollLoop f rem r s).1 = s := by
  intro rem
  cases rem with
  | zero => intro r s _; rfl
  | succ n =>
    intro r s h
    by_cases hc : s = .QUEUED ∨ s = .RUNNING
    · exfalso
      unfold pollLoop at h
      rw [if_pos hc] at h
      have := pollLoop_retry_ge f n (r + 1) (f r)
      omega
    · rw [pollLoop_inactive f (n + 1) r s hc]

/-- The final status is the last one the engine reported. -/
theorem pollLoop_last (f : Nat → QueryStatus) :
    ∀ (rem r : Nat) (s : QueryStatus), r < (pollLoop f rem r s).2 →
    (pollLoop f rem r s).1 = f ((pollLoop f rem r s).2 - 1) := by
  intro rem
  induction rem with
  | zero => intro r s h; exact absurd h (Nat.lt_irrefl r)
  | succ n ih =>
    intro r s h
    by_cases hc : s = .QUEUED ∨ s = .RUNNING
    · unfold pollLoop at h ⊢
      rw [if_pos hc] at h ⊢
      by_cases h2 : r + 1 < (pollLoop f n (r + 1) (f r)).2
      · exact ih (r + 1) (f r) h2
      · have hge := pollLoop_retry_ge f n (r + 1) (f r)
        have heq : (pollLoop f n (r + 1) (f r)).2 = r + 1 := by omega
        rw [heq]
        simpa using pollLoop_retry_eq_imp f n (r + 1) (f r) heq
    · rw [pollLoop_inactive f (n + 1) r s hc] at h
      simp at h

/-- Every status observed strictly before the last call was still active
(the loop stops at the first terminal status it sees). -/
theorem pollLoop_early (f : Nat → QueryStatus) :
    ∀ (rem r : Nat) (s : QueryStatus) (k : Nat), r ≤ k →
    k + 1 < (pollLoop f rem r s).2 →
    f k = .QUEUED ∨ f k = .RUNNING := by
  intro rem
  induction rem with
  | zero =>
    intro r s k hrk h
    have : (pollLoop f 0 r s).2 = r := rfl
    omega
  | succ n ih =>
    intro r s k hrk h
    by_cases hc : s = .QUEUED ∨ s = .RUNNING
    · unfold pollLoop at h
      rw [if_pos hc] at h
      by_cases hk : r + 1 ≤ k
      · exact ih (r + 1) (f r) k hk h
      · have hkr : k = r := by omega
        by_cases hfr : f r = .QUEUED ∨ f r = .RUNNING
        · rw [hkr]; exact hfr
        · rw [pollLoop_inactive f n (r + 1) (f r) hfr] at h
          simp at h
          omega
    · rw [pollLoop_inactive f (n + 1) r s hc] at h
      simp at h
      omega

/-! ## Trace counting and row-normalization shape -/

/-- Count of status calls in the two trace shapes the coordinator produces. -/
theorem count_getStatus_trace (n : Nat) :
    (EngineCall.startQuery :: List.replicate n EngineCall.getStatus).count
      EngineCall.getStatus = n ∧
    ((EngineCall.startQuery :: List.replicate n EngineCall.getStatus) ++
      [EngineCall.getResults]).count EngineCall.getStatus = n := by
  constructor <;>
    simp [List.count_cons, List.count_append, List.count_replicate, List.count_singleton]

/-- The per-row loop of `rowToDataAux` starting at offset `i` is the
index-wise zip of the columns against the row values from `i` on. -/
theorem rowToDataAux_eq_zip (ds : List Datum) :
    ∀ (cols : List ColumnDesc) (i : Nat),
    rowToDataAux ds i cols =
      (cols.zip (ds.drop i)).map (fun p => (p.1.name, p.2.varCharValue.getD [])) := by
  intro cols
  induction cols with
  | nil => intro i; rfl
  | cons c cs ih =>
    intro i
    unfold rowToDataAux
    cases hd : ds.get? i with
    | none =>
      have hlen : ds.length ≤ i := List.get?_eq_none.mp hd
      have h1 : ds.drop i = [] := List.drop_eq_nil_of_le hlen
      have h2 : ds.drop (i + 1) = [] :=
        List.drop_eq_nil_of_le (Nat.le_trans hlen (Nat.le_succ i))
      rw [ih (i + 1), h1, h2]
      simp
    | some d =>
      have hlt : i < ds.length := by
        by_contra hge
        push_neg at hge
        rw [List.get?_eq_none.mpr hge] at hd
        cases hd
      have hdrop : ds.drop i = ds.get ⟨i, hlt⟩ :: ds.drop (i + 1) := by
        rw [List.drop_eq_getElem_cons hlt]
        rfl
      have hdi : ds.get ⟨i, hlt⟩ = d := by
        have hg := List.get?_eq_get hlt
        rw [hg] at hd
        exact Option.some.inj hd
      rw [ih (i + 1), hdrop, hdi]
      simp

/-- `rowToData` zips the row values against the column order; a short row
contributes only its present columns, extra values beyond the column list are
ignored. -/
theorem rowToData_eq_zip (cols : List ColumnDesc) (row : RawRow) :
    rowToData cols row =
      (cols.zip row.rowData).map (fun p => (p.1.name, p.2.varCharValue.getD [])) := by
  unfold rowToData
  rw [rowToDataAux_eq_zip]
  rfl

/-- Index lookup in a zip of two lists. -/
theorem zip_get?_some {α β : Type} : ∀ (l1 : List α) (l2 : List β) (i : Nat) (a : α) (b : β),
    l1.get? i = some a → l2.get? i = some b → (l1.zip l2).get? i = some (a, b) := by
  intro l1
  induction l1 with
  | nil => intro l2 i a b h1 _; simp at h1
  | cons x xs ih =>
    intro l2 i a b h1 h2
    cases l2 with
    | nil => simp at h2
    | cons y ys =>
      cases i with
      | zero =>
        simp at h1 h2
        simp [h1, h2]
      | succ n =>
        simp only [List.get?_cons_succ] at h1 h2
        simp only [List.zip_cons_cons, List.get?_cons_succ]
        exact ih ys n a b h1 h2

/-- Characterization of `execute_athena_query` with `wait_for_completion = true`
once validation has admitted the query and the engine start call returned an
execution id. -/
theorem execute_wait_char (eng : ExecEngine) (q : Str) (wg ol : Option Str)
    (dwg dol qid : Str)
    (hv : validate_query q = none)
    (hs : eng.start_query_execution q (orDefault wg dwg) (orDefault ol dol) =
      Except.ok qid) :
    execute_athena_query eng q wg ol true dwg dol =
      (if (pollLoop (fun k => (eng.get_query_execution k).state)
            max_retries 0 .RUNNING).1 = .SUCCEEDED then
        (ExecOutput.ok qid (orDefault ol dol ++ qid ++ ".csv".data)
          (some (pollLoop (fun k => (eng.get_query_execution k).state)
            max_retries 0 .RUNNING).1)
          (some eng.get_query_results),
         (EngineCall.startQuery ::
           List.replicate (pollLoop (fun k => (eng.get_query_execution k).state)
             max_retries 0 .RUNNING).2 .getStatus) ++ [.getResults])
      else
        (ExecOutput.ok qid (orDefault ol dol ++ qid ++ ".csv".data)
          (some (pollLoop (fun k => (eng.get_query_execution k).state)
            max_retries 0 .RUNNING).1)
          none,
         EngineCall.startQuery ::
           List.replicate (pollLoop (fun k => (eng.get_query_execution k).state)
             max_retries 0 .RUNNING).2 .getStatus)) := by
  simp only [execute_athena_query, hv, hs]
  simp

/-! ## Claims about the validator -/

/-- C1 (amended): for every SQL string in which some denylisted keyword occurs
as a whole word in the stripped, uppercased copy, validation rejects the
query; when the string additionally passes the allowed-prefix test, the
rejection reason identifies the first matching keyword of the fixed list
order (a string failing the prefix test is rejected with the
prefix-restriction reason instead, which names no keyword). -/
theorem c1_keyword_rejection (s : Str)
    (hkw : ∃ kw ∈ disallowed_keywords, containsWord kw (normalizeQuery s) = true) :
    (∃ r, validate_query s = some r) ∧
    (∀ kw, allowedStart (normalizeQuery s) = true →
      disallowed_keywords.find? (fun k => containsWord k (normalizeQuery s)) = some kw →
      validate_query s = some (keywordRestrictionError kw)) := by
  constructor
  · by_cases hpre : allowedStart (normalizeQuery s) = true
    · cases hfind : disallowed_keywords.find?
        (fun k => containsWord k (normalizeQuery s)) with
      | none =>
        exfalso
        obtain ⟨kw, hmem, hcw⟩ := hkw
        exact (List.find?_eq_none.mp hfind kw hmem) hcw
      | some kw =>
        refine ⟨keywordRestrictionError kw, ?_⟩
        simp only [validate_query, hpre, hfind]
        simp
    · refine ⟨prefixRestrictionError, ?_⟩
      simp only [validate_query]
      rw [if_pos]
      simp [hpre]
  · intro kw hpre hfind
    simp only [validate_query, hpre, hfind]
    simp

/-- C1 witness: a query that passes the prefix test and contains `DROP` after a
semicolon is rejected naming `DROP`, the first (and only) matching keyword. -/
theorem c1_keyword_rejection_witness :
    validate_query "SELECT 1; DROP TABLE T".data =
      some (keywordRestrictionError "DROP".data) := by
  have h := c1_keyword_rejection "SELECT 1; DROP TABLE T".data (by decide)
  exact h.2 "DROP".data (by decide) (by decide)

/-- C1 counterexample: the string `DELETE FROM T` contains the denylisted
keyword `DELETE` as a whole word, yet the rejection reason is the
prefix-restriction message, which is not the keyword message of any
denylisted keyword — refuting the claim that the reason always identifies
the matching keyword. -/
theorem c1_keyword_rejection_counterexample :
    containsWord "DELETE".data (normalizeQuery "DELETE FROM T".data) = true ∧
    validate_query "DELETE FROM T".data = some prefixRestrictionError ∧
    (∀ kw ∈ disallowed_keywords, prefixRestrictionError ≠ keywordRestrictionError kw) := by
  refine ⟨by decide, by decide, by decide⟩

/-- C2: every SQL string whose stripped, uppercased form starts with an
allowed opener (or equals `SHOW DATABASES`) and contains no denylisted
keyword as a whole word is admitted by validation. -/
theorem c2_admission (s : Str)
    (hpre : allowedStart (normalizeQuery s) = true)
    (hkw : ∀ kw ∈ disallowed_keywords, containsWord kw (normalizeQuery s) = false) :
    validate_query s = none := by
  have hf : disallowed_keywords.find?
      (fun kw => containsWord kw (normalizeQuery s)) = none := by
    apply List.find?_eq_none.mpr
    intro kw hmem
    simp [hkw kw hmem]
  simp only [validate_query, hpre, hf]
  simp

/-- C2 witness: a mixed-case query with leading/trailing whitespace whose only
brush with the denylist is the longer identifier `DROPPING` is admitted. -/
theorem c2_admission_witness :
    validate_query "  Select * From T Where name_x = DROPPING \n".data = none :=
  c2_admission "  Select * From T Where name_x = DROPPING \n".data
    (by decide) (by decide)

/-- C6 (amended): every empty or whitespace-only input is rejected with a
non-null reason, namely the prefix-restriction message — the code has no
dedicated "empty query" reason. -/
theorem c6_empty_rejection (s : Str) (h : strip s = []) :
    validate_query s = some prefixRestrictionError := by
  have hn : normalizeQuery s = [] := by
    unfold normalizeQuery upper
    rw [h]
    rfl
  simp only [validate_query, hn]
  decide

/-- C6 witness: a whitespace-only string is rejected with the
prefix-restriction reason. -/
theorem c6_empty_rejection_witness :
    validate_query "  \t\n  ".data = some prefixRestrictionError :=
  c6_empty_rejection "  \t\n  ".data (by decide)

/-- C6 counterexample: the empty and a whitespace-only string are rejected,
but the reason is the prefix-restriction message, not `empty query`. -/
theorem c6_empty_rejection_counterexample :
    validate_query "".data = some prefixRestrictionError ∧
    validate_query "   \n\t   ".data = some prefixRestrictionError ∧
    prefixRestrictionError ≠ "empty query".data := by
  refine ⟨by decide, by decide, by decide⟩

/-! ## Claims about the execution coordinator -/

/-- A raw results response with one column and two raw rows: the header row
followed by one data row. -/
def respSample : ResultsResponse :=
  ⟨some ⟨some [⟨some "ID".data, some "varchar".data⟩],
        some [⟨[⟨some "ID".data⟩]⟩, ⟨[⟨some "42".data⟩]⟩]⟩⟩

/-- A well-behaved engine: start succeeds and the first status poll already
reports SUCCEEDED. -/
def engSample : ExecEngine :=
  { start_query_execution := fun _ _ _ => Except.ok "QID1".data
    get_query_execution := fun _ => ⟨.SUCCEEDED, none, none, none⟩
    get_query_results := respSample }

/-- An engine whose execution fails, reporting a state-change reason. -/
def engFailA : ExecEngine :=
  { start_query_execution := fun _ _ _ => Except.ok "QID2".data
    get_query_execution := fun _ => ⟨.FAILED, some "Table not found".data, none, none⟩
    get_query_results := ⟨none⟩ }

/-- The same failing engine but without a state-change reason. -/
def engFailB : ExecEngine :=
  { start_query_execution := fun _ _ _ => Except.ok "QID2".data
    get_query_execution := fun _ => ⟨.FAILED, none, none, none⟩
    get_query_results := ⟨none⟩ }

/-- C3: whenever validation rejects the query, submit returns the rejection as
a structured error outcome and makes no engine call at all — in particular the
start-query operation is never invoked. -/
theorem c3_no_engine_call_on_rejection (eng : ExecEngine) (q : Str)
    (wg ol : Option Str) (wfc : Bool) (dwg dol r : Str)
    (hv : validate_query q = some r) :
    execute_athena_query eng q wg ol wfc dwg dol = (ExecOutput.error r, []) ∧
    EngineCall.startQuery ∉ (execute_athena_query eng q wg ol wfc dwg dol).2 := by
  have h : execute_athena_query eng q wg ol wfc dwg dol = (ExecOutput.error r, []) := by
    simp only [execute_athena_query, hv]
  refine ⟨h, ?_⟩
  rw [h]
  simp

/-- C3 witness: submitting `DROP TABLE x` yields the rejection outcome with an
empty engine-call trace. -/
theorem c3_no_engine_call_on_rejection_witness :
    execute_athena_query engSample "DROP TABLE x".data none none false
      "WG".data "LOC/".data = (ExecOutput.error prefixRestrictionError, []) ∧
    EngineCall.startQuery ∉
      (execute_athena_query engSample "DROP TABLE x".data none none false
        "WG".data "LOC/".data).2 :=
  c3_no_engine_call_on_rejection engSample "DROP TABLE x".data none none false
    "WG".data "LOC/".data prefixRestrictionError (by decide)

/-- C4 (amended): when the polled terminal status is SUCCEEDED, the outcome
attaches the engine's raw get-results response exactly as returned — header
row included, no ResultRow mappings, no rowCount; the Result Normalizer is
applied only by the separate fetch-results operation. -/
theorem c4_raw_results_attached (eng : ExecEngine) (q : Str) (wg ol : Option Str)
    (dwg dol qid : Str)
    (hv : validate_query q = none)
    (hs : eng.start_query_execution q (orDefault wg dwg) (orDefault ol dol) =
      Except.ok qid)
    (hp : (pollLoop (fun k => (eng.get_query_execution k).state)
      max_retries 0 .RUNNING).1 = .SUCCEEDED) :
    (execute_athena_query eng q wg ol true dwg dol).1 =
      ExecOutput.ok qid (orDefault ol dol ++ qid ++ ".csv".data) (some .SUCCEEDED)
        (some eng.get_query_results) := by
  rw [execute_wait_char eng q wg ol dwg dol qid hv hs]
  rw [if_pos hp, hp]

/-- C4 witness: on an engine that succeeds immediately, the outcome carries
status SUCCEEDED and the raw results response. -/
theorem c4_raw_results_attached_witness :
    (execute_athena_query engSample "SELECT 1".data none none true
      "WG".data "LOC/".data).1 =
      ExecOutput.ok "QID1".data ("LOC/".data ++ "QID1".data ++ ".csv".data)
        (some .SUCCEEDED) (some engSample.get_query_results) :=
  c4_raw_results_attached engSample "SELECT 1".data none none
    "WG".data "LOC/".data "QID1".data (by decide) rfl (by decide)

/-- C4 counterexample: with raw rows [header, row1] and one column, the
attached `Results` value is the raw response, whose row list still has length
2 and includes the header, whereas the normalized ResultSet has exactly one
row — so the attached results are not the normalized ResultSet. -/
theorem c4_raw_results_attached_counterexample :
    (execute_athena_query engSample "SELECT 1".data none none true
      "WG".data "LOC/".data).1 =
      ExecOutput.ok "QID1".data "LOC/QID1.csv".data (some .SUCCEEDED)
        (some respSample) ∧
    (match respSample.resultSet with
     | some rs => (rs.rows.getD []).length
     | none => 0) = 2 ∧
    (processRows (processColumnInfo respSample) respSample).length = 1 := by
  refine ⟨by decide, by decide, by decide⟩

/-- C5 (amended): when the polled terminal status is FAILED, submit does not
raise: it returns a structured outcome with status FAILED — but the outcome
does not include the engine's failure reason (the submit path never reads
`StateChangeReason`; only the separate fetch-results operation surfaces it). -/
theorem c5_failed_outcome (eng : ExecEngine) (q : Str) (wg ol : Option Str)
    (dwg dol qid : Str)
    (hv : validate_query q = none)
    (hs : eng.start_query_execution q (orDefault wg dwg) (orDefault ol dol) =
      Except.ok qid)
    (hp : (pollLoop (fun k => (eng.get_query_execution k).state)
      max_retries 0 .RUNNING).1 = .FAILED) :
    (execute_athena_query eng q wg ol true dwg dol).1 =
      ExecOutput.ok qid (orDefault ol dol ++ qid ++ ".csv".data)
        (some .FAILED) none := by
  rw [execute_wait_char eng q wg ol dwg dol qid hv hs]
  rw [if_neg (by rw [hp]; intro hcon; cases hcon), hp]

/-- C5 witness: a first-poll FAILED execution yields the structured FAILED
outcome with no results attached. -/
theorem c5_failed_outcome_witness :
    (execute_athena_query engFailA "SELECT 1".data none none true
      "WG".data "LOC/".data).1 =
      ExecOutput.ok "QID2".data ("LOC/".data ++ "QID2".data ++ ".csv".data)
        (some .FAILED) none :=
  c5_failed_outcome engFailA "SELECT 1".data none none
    "WG".data "LOC/".data "QID2".data (by decide) rfl (by decide)

/-- C5 counterexample: two engines that differ only in the state-change reason
they report (one gives `Table not found`, the other gives none) produce
byte-for-byte identical submit outcomes — so the outcome cannot include the
engine's failure reason even when the engine provides one. -/
theorem c5_failed_outcome_counterexample :
    (engFailA.get_query_execution 0).stateChangeReason = some "Table not found".data ∧
    (engFailB.get_query_execution 0).stateChangeReason = none ∧
    execute_athena_query engFailA "SELECT 1".data none none true
      "WG".data "LOC/".data =
      execute_athena_query engFailB "SELECT 1".data none none true
        "WG".data "LOC/".data ∧
    (execute_athena_query engFailA "SELECT 1".data none none true
      "WG".data "LOC/".data).1 =
      ExecOutput.ok "QID2".data "LOC/QID2.csv".data (some .FAILED) none := by
  refine ⟨by decide, by decide, by decide, by decide⟩

/-- C9: with wait-for-completion, the (always terminating) poll loop makes at
most 100 status checks, stops as soon as the observed status leaves
{QUEUED, RUNNING}, and exhausting the budget is not an error: the outcome is a
structured ok-outcome carrying the last observed status, which can only still
be QUEUED or RUNNING when all 100 checks were used. -/
theorem c9_poll_budget (eng : ExecEngine) (q : Str) (wg ol : Option Str)
    (dwg dol qid : Str)
    (hv : validate_query q = none)
    (hs : eng.start_query_execution q (orDefault wg dwg) (orDefault ol dol) =
      Except.ok qid) :
    ∃ n st res,
      (execute_athena_query eng q wg ol true dwg dol).1 =
        ExecOutput.ok qid (orDefault ol dol ++ qid ++ ".csv".data) (some st) res ∧
      (execute_athena_query eng q wg ol true dwg dol).2.count .getStatus = n ∧
      1 ≤ n ∧ n ≤ max_retries ∧
      st = (eng.get_query_execution (n - 1)).state ∧
      ((st = .QUEUED ∨ st = .RUNNING) → n = max_retries) ∧
      (∀ k, k + 1 < n →
        (eng.get_query_execution k).state = .QUEUED ∨
        (eng.get_query_execution k).state = .RUNNING) := by
  have hw := execute_wait_char eng q wg ol dwg dol qid hv hs
  have h1 : 1 ≤ (pollLoop (fun k => (eng.get_query_execution k).state)
      max_retries 0 .RUNNING).2 := by
    have := pollLoop_ge_one (fun k => (eng.get_query_execution k).state)
      max_retries 0 .RUNNING (Or.inr rfl) (by decide)
    omega
  have h2 : (pollLoop (fun k => (eng.get_query_execution k).state)
      max_retries 0 .RUNNING).2 ≤ max_retries := by
    have := pollLoop_retry_le (fun k => (eng.get_query_execution k).state)
      max_retries 0 .RUNNING
    omega
  have h3 := pollLoop_last (fun k => (eng.get_query_execution k).state)
    max_retries 0 .RUNNING (by omega)
  have h4 : ((pollLoop (fun k => (eng.get_query_execution k).state)
        max_retries 0 .RUNNING).1 = .QUEUED ∨
      (pollLoop (fun k => (eng.get_query_execution k).state)
        max_retries 0 .RUNNING).1 = .RUNNING) →
      (pollLoop (fun k => (eng.get_query_execution k).state)
        max_retries 0 .RUNNING).2 = max_retries := by
    intro h
    have := pollLoop_active_exhausts (fun k => (eng.get_query_execution k).state)
      max_retries 0 .RUNNING h
    omega
  have h5 : ∀ k, k + 1 < (pollLoop (fun k => (eng.get_query_execution k).state)
      max_retries 0 .RUNNING).2 →
      (eng.get_query_execution k).state = .QUEUED ∨
      (eng.get_query_execution k).state = .RUNNING := fun k hk =>
    pollLoop_early (fun j => (eng.get_query_execution j).state)
      max_retries 0 .RUNNING k (Nat.zero_le k) hk
  refine ⟨(pollLoop (fun k => (eng.get_query_execution k).state)
      max_retries 0 .RUNNING).2,
    (pollLoop (fun k => (eng.get_query_execution k).state)
      max_retries 0 .RUNNING).1,
    if (pollLoop (fun k => (eng.get_query_execution k).state)
      max_retries 0 .RUNNING).1 = .SUCCEEDED
      then some eng.get_query_results else none, ?_, ?_, h1, h2, h3, h4, h5⟩
  · rw [hw]
    by_cases hsucc : (pollLoop (fun k => (eng.get_query_execution k).state)
        max_retries 0 .RUNNING).1 = .SUCCEEDED
    · rw [if_pos hsucc, if_pos hsucc]
    · rw [if_neg hsucc, if_neg hsucc]
  · rw [hw]
    by_cases hsucc : (pollLoop (fun k => (eng.get_query_execution k).state)
        max_retries 0 .RUNNING).1 = .SUCCEEDED
    · rw [if_pos hsucc]
      exact (count_getStatus_trace _).2
    · rw [if_neg hsucc]
      exact (count_getStatus_trace _).1

/-- C9 witness: on an engine whose first poll reports SUCCEEDED, the poll
budget theorem applies with the hypotheses discharged concretely. -/
theorem c9_poll_budget_witness :
    ∃ n st res,
      (execute_athena_query engSample "SELECT 1".data none none true
        "WG".data "LOC/".data).1 =
        ExecOutput.ok "QID1".data
          (orDefault none "LOC/".data ++ "QID1".data ++ ".csv".data) (some st) res ∧
      (execute_athena_query engSample "SELECT 1".data none none true
        "WG".data "LOC/".data).2.count .getStatus = n ∧
      1 ≤ n ∧ n ≤ max_retries ∧
      st = (engSample.get_query_execution (n - 1)).state ∧
      ((st = .QUEUED ∨ st = .RUNNING) → n = max_retries) ∧
      (∀ k, k + 1 < n →
        (engSample.get_query_execution k).state = .QUEUED ∨
        (engSample.get_query_execution k).state = .RUNNING) :=
  c9_poll_budget engSample "SELECT 1".data none none
    "WG".data "LOC/".data "QID1".data (by decide) rfl

/-! ## Claims about the results fetch path and the normalizer -/

/-- C7: the fetch output carries the ColumnInfo, Rows and RowCount fields if
and only if the execution's current status is SUCCEEDED; for any other status
the output has status and metadata only, with those fields absent — so their
absence is distinguishable from a successful result with zero rows. -/
theorem c7_fields_iff_succeeded (eng : FetchEngine) (qid : Str) (mr : Nat) :
    (get_athena_query_results eng qid mr).status = eng.get_query_execution.state ∧
    ((get_athena_query_results eng qid mr).columnInfo.isSome ↔
      (get_athena_query_results eng qid mr).status = .SUCCEEDED) ∧
    ((get_athena_query_results eng qid mr).rows.isSome ↔
      (get_athena_query_results eng qid mr).status = .SUCCEEDED) ∧
    ((get_athena_query_results eng qid mr).rowCount.isSome ↔
      (get_athena_query_results eng qid mr).status = .SUCCEEDED) := by
  unfold get_athena_query_results
  by_cases h : eng.get_query_execution.state = .SUCCEEDED
  · simp [h]
  · simp [h]

/-- C8: normalization skips exactly the first raw row by position (whatever
its content), builds each remaining row by zipping its positional values
against the column order (a short row keeps only the columns that have a
value, and the total lookup never fails), and the output RowCount always
equals the number of ResultRow entries produced. -/
theorem c8_normalization_shape :
    (∀ (meta : Option (List RawColumn)) (hdr : RawRow) (rest : List RawRow)
      (cols : List ColumnDesc),
      processRows cols ⟨some ⟨meta, some (hdr :: rest)⟩⟩ = rest.map (rowToData cols)) ∧
    (∀ (cols : List ColumnDesc) (row : RawRow),
      rowToData cols row =
        (cols.zip row.rowData).map (fun p => (p.1.name, p.2.varCharValue.getD [])) ∧
      (rowToData cols row).length = min cols.length row.rowData.length) ∧
    (∀ (eng : FetchEngine) (qid : Str) (mr : Nat),
      (get_athena_query_results eng qid mr).rowCount =
        (get_athena_query_results eng qid mr).rows.map List.length) := by
  refine ⟨fun _ _ _ _ => rfl, fun cols row => ⟨rowToData_eq_zip cols row, ?_⟩, ?_⟩
  · rw [rowToData_eq_zip]
    simp [List.length_zip]
  · intro eng qid mr
    unfold get_athena_query_results
    by_cases h : eng.get_query_execution.state = .SUCCEEDED
    · simp [h]
    · simp [h]

/-- C10: a cell present in the row's data array but carrying no scalar value
(missing `VarCharValue`) is mapped to the empty string under its column name,
while only trailing entries absent from the data array altogether are omitted
(the mapping has exactly `min columns values` entries). -/
theorem c10_null_cell_empty_string (cols : List ColumnDesc) (row : RawRow) (i : Nat)
    (hc : i < cols.length) (hd : row.rowData.get? i = some ⟨none⟩) :
    (rowToData cols row).get? i = some ((cols.get ⟨i, hc⟩).name, []) ∧
    (rowToData cols row).length = min cols.length row.rowData.length := by
  constructor
  · rw [rowToData_eq_zip]
    rw [List.get?_map]
    rw [zip_get?_some cols row.rowData i (cols.get ⟨i, hc⟩) ⟨none⟩
      (List.get?_eq_get hc) hd]
    rfl
  · rw [rowToData_eq_zip]
    simp [List.length_zip]

/-- C10 witness: a single-column row whose only cell has no `VarCharValue`
normalizes to the mapping sending that column to the empty string. -/
theorem c10_null_cell_empty_string_witness :
    (rowToData [⟨"ID".data, "varchar".data⟩] ⟨[⟨none⟩]⟩).get? 0 =
      some (("ID".data : Str), ([] : Str)) ∧
    (rowToData [⟨"ID".data, "varchar".data⟩] ⟨[⟨none⟩]⟩).length =
      min ([⟨"ID".data, "varchar".data⟩] : List ColumnDesc).length
        (([⟨none⟩] : List Datum)).length :=
  c10_null_cell_empty_string [⟨"ID".data, "varchar".data⟩] ⟨[⟨none⟩]⟩ 0
    (by decide) (by decide)

end AthenaMCP
